import Mathlib

/-!
Verification of the signing and ticket-cache core of `ansiz/wechat`

Shallow embedding of `pay.JsPaySign`, `pay.Manager.getPrepayResponse`,
`js.Manager.GetTicket` and `js.Manager.getTicketFromServer`.

Go strings and byte slices are sequences of bytes (`Fin 256`).  Collaborators
whose code lives outside the repository sources (the hash behind `hash.Hash`,
`sort.Strings`, `encoding/hex`, `bytes.ToUpper`, the cache, the transport, the
decoders) are modelled by their documented contracts or passed as parameters.
-/

namespace Wechat

/-! ## Go strings -/

/-- One byte. -/
abbrev Byte := Fin 256

/-- A Go `string` (or `[]byte`): a finite sequence of bytes. -/
abbrev GoString := List Byte

/-- The bytes (UTF-8) of a string literal of the source. -/
def lit (s : String) : GoString := s.toUTF8.data.toList.map (fun b => b.val)

/-- Go's `a < b` on strings: byte-wise lexicographic comparison, a proper
prefix being smaller. -/
def strLess : GoString → GoString → Bool
  | [], [] => false
  | [], _ :: _ => true
  | _ :: _, [] => false
  | a :: as, b :: bs => if a < b then true else if b < a then false else strLess as bs

/-- The order `sort.Strings` sorts by: `a` may stand before `b` when `b < a`
is false. -/
def strLe (a b : GoString) : Prop := strLess b a = false

instance strLe.decidable : DecidableRel strLe := fun a b =>
  inferInstanceAs (Decidable (strLess b a = false))

/-- `sort.Strings(ks)`: the slice in increasing byte-wise order.  The standard
library's algorithm is not part of the sources; any sort returns the same
slice, because strings that compare equal are identical. -/
def sortStrings (ks : List GoString) : List GoString := ks.insertionSort strLe

/-- `parameters[k]` on a Go `map[string]string`, held as the list of its
entries: the value stored under `k`, or the empty string when `k` is absent. -/
def mapIndex (parameters : List (GoString × GoString)) (k : GoString) : GoString :=
  (parameters.lookup k).getD []

/-- A well-formed Go map has one entry per key. -/
def UniqueKeys (parameters : List (GoString × GoString)) : Prop :=
  (parameters.map Prod.fst).Nodup

instance UniqueKeys.decidable (parameters : List (GoString × GoString)) :
    Decidable (UniqueKeys parameters) :=
  inferInstanceAs (Decidable (parameters.map Prod.fst).Nodup)

/-! ## `hash.Hash`, `encoding/hex`, `bytes.ToUpper` -/

/-- A `hash.Hash` as produced by a constructor `func() hash.Hash`: the fresh
state, `Write`, `Sum(nil)` and `Size()`. -/
structure Hash where
  State : Type
  init : State
  Write : State → GoString → State
  Sum : State → GoString
  Size : Nat

/-- The `hash.Hash` contract: `Write` adds data to the running hash, so two
writes hash the same stream as one write of the concatenation. -/
def Hash.Streaming (H : Hash) : Prop :=
  ∀ (s : H.State) (a b : GoString), H.Write (H.Write s a) b = H.Write s (a ++ b)

/-- The `hash.Hash` contract: `Size` is the number of bytes `Sum` returns. -/
def Hash.SumHasSize (H : Hash) : Prop :=
  ∀ s : H.State, (H.Sum s).length = H.Size

/-- The digest of a byte string: one `Write` on a fresh hash, then `Sum(nil)`. -/
def Hash.digest (H : Hash) (data : GoString) : GoString :=
  H.Sum (H.Write H.init data)

/-- The table `hextable` of `encoding/hex`. -/
def hextable : GoString := lit "0123456789abcdef"

/-- The element `hextable[i]`. -/
def hexDigit (i : Byte) : Byte := hextable.getD i.val 0

/-- The bytes `hex.Encode` produces for `src`: `hextable[v>>4]` and
`hextable[v&0x0f]` for each byte `v`. -/
def hexBytes : GoString → GoString
  | [] => []
  | v :: vs => hexDigit (v >>> 4) :: hexDigit (v &&& 0x0f) :: hexBytes vs

/-- `hex.Encode(dst, src)`: the contents of `dst` afterwards, or `none` when
`dst` is shorter than `2 * len(src)` and the indexing panics. -/
def hexEncode (dst src : GoString) : Option GoString :=
  if dst.length < 2 * src.length then none
  else some (hexBytes src ++ dst.drop (2 * src.length))

/-- `bytes.ToUpper` on a slice of ASCII bytes: every byte in `'a'..'z'` is
lowered by `'a' - 'A'`. -/
def bytesToUpper (s : GoString) : GoString :=
  s.map (fun c => if 97 ≤ c ∧ c ≤ 122 then c - 32 else c)

/-! ## `pay.JsPaySign` (src/pay/pay.go) -/

/-- The first loop of `JsPaySign`: ranges over the map (here in the order of
the entry list) and appends every key but `"sign"` to `ks`. -/
def JsPaySign.collectKeys (parameters : List (GoString × GoString)) : List GoString :=
  parameters.foldl (fun ks kv => if kv.1 = lit "sign" then ks else ks ++ [kv.1]) []

/-- The body of the second loop of `JsPaySign` for key `k`: skip an empty
value, else write `k=v&` to the hash. -/
def JsPaySign.writeParam (H : Hash) (parameters : List (GoString × GoString))
    (h : H.State) (k : GoString) : H.State :=
  let v := mapIndex parameters k
  if v = [] then h
  else
    let buf : GoString := []
    let buf := buf ++ k
    let buf := buf ++ lit "="
    let buf := buf ++ v
    let buf := buf ++ lit "&"
    H.Write h buf

/-- The hash state `JsPaySign` has built when it calls `h.Sum` (lines 196-227):
keys collected and sorted, one `Write` per non-empty parameter, then the
`Write` of `key=` and the API key. -/
def JsPaySign.feed (fn : Hash) (parameters : List (GoString × GoString))
    (apiKey : GoString) : fn.State :=
  let ks := JsPaySign.collectKeys parameters
  let ks := sortStrings ks
  let h := fn.init
  let h := ks.foldl (JsPaySign.writeParam fn parameters) h
  let buf : GoString := []
  let buf := buf ++ lit "key="
  let buf := buf ++ apiKey
  fn.Write h buf

/-- `JsPaySign(parameters, apiKey, fn)`.  `md5New` stands for `md5.New`, used
when `fn` is nil.  The result is `none` when `hex.Encode` panics. -/
def JsPaySign (md5New : Hash) (parameters : List (GoString × GoString))
    (apiKey : GoString) (fn : Option Hash) : Option GoString :=
  let fn := match fn with
    | none => md5New
    | some f => f
  let h := JsPaySign.feed fn parameters apiKey
  let signature : GoString := List.replicate (fn.Size * 2) 0
  match hexEncode signature (fn.Sum h) with
  | none => none
  | some signature => some (bytesToUpper signature)

/-! ## The signature as the specification words it -/

/-- The canonical string of the specification: the keys other than `"sign"`
in ascending byte-wise order, `key=value&` for each one whose value is not
empty, then `key=` and the secret key. -/
def canonicalString (P : List (GoString × GoString)) (K : GoString) : GoString :=
  (sortStrings ((P.map Prod.fst).filter (fun k => k ≠ lit "sign"))).flatMap
      (fun k => if mapIndex P k = [] then [] else k ++ lit "=" ++ mapIndex P k ++ lit "&")
    ++ lit "key=" ++ K

/-- The signature of the specification: the upper-cased hex encoding of the
hash of the canonical string. -/
def specSign (H : Hash) (P : List (GoString × GoString)) (K : GoString) : GoString :=
  bytesToUpper (hexBytes (H.digest (canonicalString P K)))

/-- A small conforming hash used to run the definitions: it keeps the stream
written so far and sums it to two bytes (length and byte sum). -/
def toyHash : Hash where
  State := GoString
  init := []
  Write := fun s a => s ++ a
  Sum := fun s => [Fin.ofNat s.length, Fin.ofNat (s.map (fun b => b.val)).sum]
  Size := 2

/-! ## `context.Context` and the collaborators of the managers -/

/-- A Go `error` value, held as its message (`err.Error()`). -/
abbrev GoError := GoString

/-- A value behind the `interface{}` that `Cache.Get` returns and `Cache.Set`
takes: a string, or a value of some other dynamic type. -/
inductive CacheValue where
  | str (s : GoString)
  | other (tag : Nat)
  deriving DecidableEq

/-- The fields of `context.Context` that `copyConfigToContext` (src/wechat.go)
fills, over a cache whose state has type `σ`.  `Cache` is the state behind the
`cache.Cache` value; the two lock fields say whether the `sync.RWMutex` set by
`SetAccessTokenLock` / `SetJsAPITicketLock` is currently held. -/
structure Context (σ : Type) where
  AppID : GoString
  AppSecret : GoString
  Token : GoString
  EncodingAESKey : GoString
  PayMchID : GoString
  PayNotifyURL : GoString
  PayKey : GoString
  Cache : σ
  accessTokenLock : Bool
  jsAPITicketLock : Bool
  deriving DecidableEq

/-- `util.CommonError`, embedded in every JSON response struct.  The `util`
package is not among the sources; js.go compares `ErrCode` with `0`, prints it
with `%d` and prints `ErrMsg` with `%s`. -/
structure CommonError where
  ErrCode : Int
  ErrMsg : GoString
  deriving DecidableEq

/-- `resTicket` (src/js/js.go): the response of the ticket endpoint. -/
structure resTicket extends CommonError where
  Ticket : GoString
  ExpiresIn : Int
  deriving DecidableEq

/-- The zero value of `resTicket` (`var ticket resTicket`). -/
def resTicket.zero : resTicket :=
  { ErrCode := 0, ErrMsg := [], Ticket := [], ExpiresIn := 0 }

/-- A call that a manager makes on a collaborator, in source order. -/
inductive Event where
  | lock
  | unlock
  | cacheGet (key : GoString)
  | cacheSet (key : GoString) (val : CacheValue) (ttl : Int)
  | getAccessToken
  | httpGet (url : GoString)
  deriving DecidableEq

/-- Whether the call is a `Cache.Set`. -/
def Event.isCacheSet : Event → Bool
  | .cacheSet _ _ _ => true
  | _ => false

/-- The TTLs (`time.Duration`, in nanoseconds) handed to `Cache.Set`, in call
order. -/
def setTTLs : List Event → List Int
  | [] => []
  | .cacheSet _ _ ttl :: es => ttl :: setTTLs es
  | _ :: es => setTTLs es

/-- The collaborators of `js.Manager`, none of which is among the sources.
Modelled from the spec: the Cache Abstraction is a key/value store consumed
via `Get(key)` (value or absent, a read) and `Set(key, value, ttl)` (may
fail); `GetAccessToken` is the access-token flow of `context.Context`, which
works on the same cache; `HTTPGet` is `util.HTTPGet` (bytes and error);
`jsonUnmarshal` is `json.Unmarshal` into a zero `resTicket` (the struct as it
leaves the decoder, and the error). -/
structure Env (σ : Type) where
  cacheGet : σ → GoString → Option CacheValue
  cacheSet : σ → GoString → CacheValue → Int → σ × Option GoError
  GetAccessToken : σ → (GoString × Option GoError) × σ
  HTTPGet : GoString → GoString × Option GoError
  jsonUnmarshal : GoString → resTicket × Option GoError

/-- An `int64` result: the integer reduced to the two's-complement range. -/
def wrapInt64 (x : Int) : Int := (x + 2 ^ 63) % 2 ^ 64 - 2 ^ 63

/-- `time.Second`, a `time.Duration` in nanoseconds. -/
def timeSecond : Int := 1000000000

/-- `%d` of an integer. -/
def fmtInt (n : Int) : GoString := lit (toString n)

/-! ## `js.Manager` (src/js/js.go) -/

/-- `fmt.Sprintf(getTicketURL, accessToken)`. -/
def getTicketURL (accessToken : GoString) : GoString :=
  lit "https://api.weixin.qq.com/cgi-bin/ticket/getticket?access_token=" ++ accessToken
    ++ lit "&type=jsapi"

/-- `fmt.Sprintf("jsapi_ticket_%s", m.AppID)`. -/
def jsAPITicketCacheKey (appID : GoString) : GoString := lit "jsapi_ticket_" ++ appID

/-- `fmt.Errorf("getTicket Error : errcode=%d , errmsg=%s", code, msg)`. -/
def getTicketError (code : Int) (msg : GoString) : GoError :=
  lit "getTicket Error : errcode=" ++ fmtInt code ++ lit " , errmsg=" ++ msg

/-- `getTicketFromServer`: the named results `(ticket, err)`, the context
afterwards and the calls made. -/
def getTicketFromServer {σ : Type} (env : Env σ) (m : Context σ) :
    (resTicket × Option GoError) × Context σ × List Event :=
  let ticket := resTicket.zero
  let tok := env.GetAccessToken m.Cache
  let accessToken := tok.1.1
  let err := tok.1.2
  let m := { m with Cache := tok.2 }
  let trace := [Event.getAccessToken]
  match err with
  | some e => ((ticket, some e), m, trace)
  | none =>
    let url := getTicketURL accessToken
    -- `response, err = util.HTTPGet(url)`: the next line assigns `err` again
    let got := env.HTTPGet url
    let response := got.1
    let trace := trace ++ [Event.httpGet url]
    let dec := env.jsonUnmarshal response
    let ticket := dec.1
    let err := dec.2
    match err with
    | some e => ((ticket, some e), m, trace)
    | none =>
      if ticket.ErrCode ≠ 0 then
        ((ticket, some (getTicketError ticket.ErrCode ticket.ErrMsg)), m, trace)
      else
        let key := jsAPITicketCacheKey m.AppID
        let expires := wrapInt64 (ticket.ExpiresIn - 1500)
        let ttl := wrapInt64 (expires * timeSecond)
        let set := env.cacheSet m.Cache key (CacheValue.str ticket.Ticket) ttl
        ((ticket, set.2), { m with Cache := set.1 }, trace ++ [Event.cacheSet key (CacheValue.str ticket.Ticket) ttl])

/-- How a call of `GetTicket` ends: it returns `(ticketStr, err)`, or the type
assertion `val.(string)` panics. -/
inductive Outcome where
  | returned (ticketStr : GoString) (err : Option GoError)
  | panicked
  deriving DecidableEq

/-- `GetTicket`, run by one goroutine: `none` when the ticket lock is held and
`Lock()` blocks; else the outcome, the context afterwards and the calls made.
The deferred `Unlock()` runs on every way out. -/
def GetTicket {σ : Type} (env : Env σ) (m : Context σ) :
    Option (Outcome × Context σ × List Event) :=
  if m.jsAPITicketLock then none
  else
    let m := { m with jsAPITicketLock := true }
    let key := jsAPITicketCacheKey m.AppID
    let val := env.cacheGet m.Cache key
    let trace := [Event.lock, Event.cacheGet key]
    match val with
    | some (CacheValue.str s) =>
      some (Outcome.returned s none, { m with jsAPITicketLock := false }, trace ++ [Event.unlock])
    | some (CacheValue.other _) =>
      some (Outcome.panicked, { m with jsAPITicketLock := false }, trace ++ [Event.unlock])
    | none =>
      let r := getTicketFromServer env m
      let ticket := r.1.1
      let err := r.1.2
      let m := r.2.1
      let trace := trace ++ r.2.2
      match err with
      | some e =>
        some (Outcome.returned [] (some e), { m with jsAPITicketLock := false }, trace ++ [Event.unlock])
      | none =>
        some (Outcome.returned ticket.Ticket none, { m with jsAPITicketLock := false },
          trace ++ [Event.unlock])

/-! ## `pay.Manager.getPrepayResponse` (src/pay/pay.go) -/

/-- `PayParams`. -/
structure PayParams where
  TotalFee : GoString
  CreateIP : GoString
  Body : GoString
  OutTradeNo : GoString
  OpenID : GoString
  deriving DecidableEq

/-- `CommonResp`. -/
structure CommonResp where
  ReturnCode : GoString
  ReturnMsg : GoString
  deriving DecidableEq

/-- `UnifiedOrderResp`. -/
structure UnifiedOrderResp extends CommonResp where
  AppID : GoString
  MchID : GoString
  NonceStr : GoString
  Sign : GoString
  ResultCode : GoString
  TradeType : GoString
  PrePayID : GoString
  CodeURL : GoString
  ErrCode : GoString
  ErrCodeDes : GoString
  deriving DecidableEq

/-- The zero value `UnifiedOrderResp{}`. -/
def UnifiedOrderResp.zero : UnifiedOrderResp :=
  { ReturnCode := [], ReturnMsg := [], AppID := [], MchID := [], NonceStr := [], Sign := [],
    ResultCode := [], TradeType := [], PrePayID := [], CodeURL := [], ErrCode := [],
    ErrCodeDes := [] }

/-- `UnifiedOrderRequest`. -/
structure UnifiedOrderRequest where
  AppID : GoString
  MchID : GoString
  DeviceInfo : GoString
  NonceStr : GoString
  Sign : GoString
  SignType : GoString
  Body : GoString
  Detail : GoString
  Attach : GoString
  OutTradeNo : GoString
  FeeType : GoString
  TotalFee : GoString
  SpbillCreateIP : GoString
  TimeStart : GoString
  TimeExpire : GoString
  GoodsTag : GoString
  NotifyURL : GoString
  TradeType : GoString
  ProductID : GoString
  LimitPay : GoString
  OpenID : GoString
  SceneInfo : GoString
  deriving DecidableEq

/-- The collaborators of `getPrepayResponse`, none of which is among the
sources: `util.RandomStr`, `util.MD5Sum`, `util.PostXML` (bytes and error) and
`xml.Unmarshal` into a zero `UnifiedOrderResp` (the struct as it leaves the
decoder, and the error). -/
structure PayEnv where
  RandomStr : Nat → GoString
  MD5Sum : GoString → GoString
  PostXML : GoString → UnifiedOrderRequest → GoString × Option GoError
  xmlUnmarshal : GoString → UnifiedOrderResp × Option GoError

/-- The constant `unifiedOrderURL`. -/
def unifiedOrderURL : GoString := lit "https://api.mch.weixin.qq.com/pay/unifiedorder"

/-- The constant `dftTradeType`. -/
def dftTradeType : GoString := lit "JSAPI"

/-- `fmt.Sprintf(tplQueryString, ...)` with its eleven `%s` arguments. -/
def tplQueryString (appid body mchID nonceStr notifyURL openid outTradeNo createIP totalFee
    tradeType key : GoString) : GoString :=
  lit "appid=" ++ appid ++ lit "&body=" ++ body ++ lit "&mch_id=" ++ mchID
    ++ lit "&nonce_str=" ++ nonceStr ++ lit "&notify_url=" ++ notifyURL
    ++ lit "&openid=" ++ openid ++ lit "&out_trade_no=" ++ outTradeNo
    ++ lit "&spbill_create_ip=" ++ createIP ++ lit "&total_fee=" ++ totalFee
    ++ lit "&trade_type=" ++ tradeType ++ lit "&key=" ++ key

/-- The request that `getPrepayResponse` builds and posts (lines 133-150). -/
def getPrepayResponse.request {σ : Type} (env : PayEnv) (m : Context σ) (params : PayParams) :
    UnifiedOrderRequest :=
  let nonceStr := env.RandomStr 32
  let str := tplQueryString m.AppID params.Body m.PayMchID nonceStr m.PayNotifyURL
    params.OpenID params.OutTradeNo params.CreateIP params.TotalFee dftTradeType m.PayKey
  let sign := env.MD5Sum str
  { AppID := m.AppID, MchID := m.PayMchID, DeviceInfo := [], NonceStr := nonceStr,
    Sign := sign, SignType := [], Body := params.Body, Detail := [], Attach := [],
    OutTradeNo := params.OutTradeNo, FeeType := [], TotalFee := params.TotalFee,
    SpbillCreateIP := params.CreateIP, TimeStart := [], TimeExpire := [], GoodsTag := [],
    NotifyURL := m.PayNotifyURL, TradeType := dftTradeType, ProductID := [], LimitPay := [],
    OpenID := params.OpenID, SceneInfo := [] }

/-- `fmt.Errorf("get prepay id failed: errcode=%s, codedesc=%s errmsg=%s", ...)`. -/
def prepayError (errCode errCodeDes returnMsg : GoString) : GoError :=
  lit "get prepay id failed: errcode=" ++ errCode ++ lit ", codedesc=" ++ errCodeDes
    ++ lit " errmsg=" ++ returnMsg

/-- `getPrepayResponse`: the pair `(*UnifiedOrderResp, error)`, a nil pointer
being `none`.  The `logs.Debug` call has no effect on the result. -/
def getPrepayResponse {σ : Type} (env : PayEnv) (m : Context σ) (params : PayParams) :
    Option UnifiedOrderResp × Option GoError :=
  let request := getPrepayResponse.request env m params
  let posted := env.PostXML unifiedOrderURL request
  let data := posted.1
  match posted.2 with
  | some e => (none, some (lit "send unified order request failed: " ++ e))
  | none =>
    let dec := env.xmlUnmarshal data
    let res := dec.1
    match dec.2 with
    | some e => (none, some e)
    | none =>
      if res.ReturnCode = lit "SUCCESS" then
        if res.ResultCode = lit "SUCCESS" then (some res, none)
        else (none, some (prepayError res.ErrCode res.ErrCodeDes res.ReturnMsg))
      else (none, some (prepayError res.ErrCode res.ErrCodeDes res.ReturnMsg))

/-! ## Concrete collaborators, to run the definitions -/

/-- An in-memory cache state: the entries, newest first. -/
abbrev MemStore := List (GoString × CacheValue)

/-- Collaborators over the in-memory cache: the access token is `token`, the
ticket endpoint answers `body`, which decodes to `reply`, and `Cache.Set`
stores the entry, or fails with `setErr` when one is given. -/
def memEnv (token body : GoString) (reply : resTicket) (setErr : Option GoError) :
    Env MemStore where
  cacheGet := fun s k => s.lookup k
  cacheSet := fun s k v _ =>
    match setErr with
    | none => ((k, v) :: s, none)
    | some e => (s, some e)
  GetAccessToken := fun s => ((token, none), s)
  HTTPGet := fun _ => (body, none)
  jsonUnmarshal := fun _ => (reply, none)

/-- A context for app `wx1` over the in-memory cache, both locks free. -/
def memContext (store : MemStore) : Context MemStore :=
  { AppID := lit "wx1", AppSecret := lit "secret", Token := [], EncodingAESKey := [],
    PayMchID := lit "1900000109", PayNotifyURL := lit "https://example.org/notify",
    PayKey := lit "KEY", Cache := store, accessTokenLock := false, jsAPITicketLock := false }

/-- Payment collaborators whose unified-order call succeeds and decodes to
`reply`. -/
def payEnv (reply : UnifiedOrderResp) : PayEnv where
  RandomStr := fun n => List.replicate n 97
  MD5Sum := fun s => bytesToUpper (hexBytes (toyHash.digest s))
  PostXML := fun _ _ => (lit "<xml/>", none)
  xmlUnmarshal := fun _ => (reply, none)

/-- The order parameters used in the examples. -/
def demoParams : PayParams :=
  { TotalFee := lit "1", CreateIP := lit "127.0.0.1", Body := lit "book",
    OutTradeNo := lit "N1", OpenID := lit "o1" }

/-- Collaborators over the in-memory cache whose transport fails: the access
token is `token`, and `util.HTTPGet` returns the bytes `body` together with
the non-nil error `httpErr`; `body` decodes to `reply` and `Cache.Set` stores
the entry. -/
def brokenTransportEnv (token body : GoString) (httpErr : GoError) (reply : resTicket) :
    Env MemStore where
  cacheGet := fun s k => s.lookup k
  cacheSet := fun s k v _ => ((k, v) :: s, none)
  GetAccessToken := fun s => ((token, none), s)
  HTTPGet := fun _ => (body, some httpErr)
  jsonUnmarshal := fun _ => (reply, none)

/-- The body of a well-formed ticket response: `errcode` 0, ticket `T`,
`expires_in` 7200. -/
def ticketBody : GoString :=
  lit "\x7b\"errcode\":0,\"errmsg\":\"ok\",\"ticket\":\"T\",\"expires_in\":7200\x7d"

/-- Modelled from the spec: `context.Context.GetAccessToken`, whose code is not
among the sources.  The spec's Token Cache Manager looks the credential up in
the cache and returns it when present; on a miss it refreshes the credential,
stores it in the cache and returns the new value.  Here the access token has
its own key `access_token_<appID>`, a refresh yields `token`, and the store
succeeds.  The ticket endpoint answers `body`, which decodes to `reply`, and
`Cache.Set` stores the entry. -/
def coldTokenEnv (appID token body : GoString) (reply : resTicket) : Env MemStore where
  cacheGet := fun s k => s.lookup k
  cacheSet := fun s k v _ => ((k, v) :: s, none)
  GetAccessToken := fun s =>
    match s.lookup (lit "access_token_" ++ appID) with
    | some (CacheValue.str t) => ((t, none), s)
    | _ => ((token, none), (lit "access_token_" ++ appID, CacheValue.str token) :: s)
  HTTPGet := fun _ => (body, none)
  jsonUnmarshal := fun _ => (reply, none)

theorem strLess_asymm : ∀ a b : GoString, strLess a b = true → strLess b a = false
  | [], [] => by simp [strLess]
  | [], _ :: _ => by simp [strLess]
  | _ :: _, [] => by simp [strLess]
  | a :: as, b :: bs => by
    intro h
    unfold strLess at h ⊢
    rcases lt_trichotomy a b with hab | hab | hab
    · simp [hab, not_lt_of_lt hab]
    · subst hab
      simp only [lt_self_iff_false, if_false] at h ⊢
      exact strLess_asymm as bs h
    · simp [hab, not_lt_of_lt hab] at h

theorem strLe_total (a b : GoString) : strLe a b ∨ strLe b a := by
  unfold strLe
  cases h : strLess b a
  · exact Or.inl rfl
  · exact Or.inr (strLess_asymm b a h)

theorem strLe_antisymm : ∀ a b : GoString, strLe a b → strLe b a → a = b
  | [], [] => by simp
  | [], _ :: _ => by simp [strLe, strLess]
  | _ :: _, [] => by simp [strLe, strLess]
  | a :: as, b :: bs => by
    intro h1 h2
    unfold strLe strLess at h1 h2
    rcases lt_trichotomy a b with hab | hab | hab
    · simp [hab, not_lt_of_lt hab] at h2
    · subst hab
      simp only [lt_self_iff_false, if_false] at h1 h2
      rw [strLe_antisymm as bs h1 h2]
    · simp [hab, not_lt_of_lt hab] at h1

theorem strLe_trans : ∀ a b c : GoString, strLe a b → strLe b c → strLe a c
  | [], _, [] => by simp [strLe, strLess]
  | [], _, _ :: _ => by simp [strLe, strLess]
  | _ :: _, [], _ => by simp [strLe, strLess]
  | _ :: _, _ :: _, [] => by simp [strLe, strLess]
  | a :: as, b :: bs, c :: cs => by
    intro h1 h2
    unfold strLe strLess at h1 h2 ⊢
    rcases lt_trichotomy a b with hab | hab | hab
    · rcases lt_trichotomy b c with hbc | hbc | hbc
      · simp [lt_trans hab hbc, not_lt_of_lt (lt_trans hab hbc)]
      · subst hbc
        simp [hab, not_lt_of_lt hab]
      · simp [hbc, not_lt_of_lt hbc] at h2
    · subst hab
      rcases lt_trichotomy a c with hbc | hbc | hbc
      · simp [hbc, not_lt_of_lt hbc]
      · subst hbc
        simp only [lt_self_iff_false, if_false] at h1 h2 ⊢
        exact strLe_trans as bs cs h1 h2
      · simp [hbc, not_lt_of_lt hbc] at h2
    · simp [hab, not_lt_of_lt hab] at h1


theorem sortStrings_sorted (l : List GoString) : (sortStrings l).Sorted strLe := by
  haveI : IsTotal GoString strLe := ⟨strLe_total⟩
  haveI : IsTrans GoString strLe := ⟨strLe_trans⟩
  exact List.sorted_insertionSort strLe l

theorem sortStrings_perm (l : List GoString) : (sortStrings l).Perm l :=
  List.perm_insertionSort strLe l

theorem sortStrings_eq_of_perm {l₁ l₂ : List GoString} (h : l₁.Perm l₂) :
    sortStrings l₁ = sortStrings l₂ := by
  haveI : IsAntisymm GoString strLe := ⟨strLe_antisymm⟩
  exact List.eq_of_perm_of_sorted
    (((sortStrings_perm l₁).trans h).trans (sortStrings_perm l₂).symm)
    (sortStrings_sorted l₁) (sortStrings_sorted l₂)

theorem sortStrings_filter (p : GoString → Bool) (l : List GoString) :
    (sortStrings l).filter p = sortStrings (l.filter p) := by
  haveI : IsAntisymm GoString strLe := ⟨strLe_antisymm⟩
  exact List.eq_of_perm_of_sorted
    (((sortStrings_perm l).filter p).trans (sortStrings_perm (l.filter p)).symm)
    ((sortStrings_sorted l).filter p) (sortStrings_sorted (l.filter p))

theorem collectKeys_foldl (P : List (GoString × GoString)) (acc : List GoString) :
    P.foldl (fun ks kv => if kv.1 = lit "sign" then ks else ks ++ [kv.1]) acc
      = acc ++ (P.map Prod.fst).filter (fun k => decide (k ≠ lit "sign")) := by
  induction P generalizing acc with
  | nil => simp
  | cons kv P ih =>
    rw [List.foldl_cons, ih]
    by_cases hk : kv.1 = lit "sign"
    · simp [hk]
    · simp [hk]

theorem collectKeys_eq (P : List (GoString × GoString)) :
    JsPaySign.collectKeys P = (P.map Prod.fst).filter (fun k => decide (k ≠ lit "sign")) := by
  unfold JsPaySign.collectKeys
  rw [collectKeys_foldl]
  simp

/-- The chunk `k=v&` that the second loop writes for key `k`. -/
theorem writeParam_eq (H : Hash) (P : List (GoString × GoString)) (h : H.State) (k : GoString) :
    JsPaySign.writeParam H P h k
      = if mapIndex P k = [] then h else H.Write h (k ++ lit "=" ++ mapIndex P k ++ lit "&") := by
  unfold JsPaySign.writeParam
  simp

theorem writeLoop_eq (H : Hash) (P : List (GoString × GoString)) (ks : List GoString) (h : H.State) :
    ks.foldl (JsPaySign.writeParam H P) h
      = ((ks.filter (fun k => decide (mapIndex P k ≠ []))).map
          (fun k => k ++ lit "=" ++ mapIndex P k ++ lit "&")).foldl H.Write h := by
  induction ks generalizing h with
  | nil => rfl
  | cons k ks ih =>
    rw [List.foldl_cons, ih, writeParam_eq]
    by_cases hv : mapIndex P k = []
    · simp [hv]
    · simp [hv]


theorem lookup_mem {P : List (GoString × GoString)} {k v : GoString}
    (h : P.lookup k = some v) : (k, v) ∈ P := by
  induction P with
  | nil => simp at h
  | cons kv P ih =>
    obtain ⟨k', v'⟩ := kv
    by_cases hk : k = k'
    · subst hk
      simp [List.lookup] at h
      simp [h]
    · have hb : (k == k') = false := by simpa using hk
      simp only [List.lookup, hb] at h
      exact List.mem_cons_of_mem _ (ih h)

theorem lookup_none_of_not_mem {P : List (GoString × GoString)} {k : GoString}
    (h : k ∉ P.map Prod.fst) : P.lookup k = none := by
  induction P with
  | nil => rfl
  | cons kv P ih =>
    obtain ⟨k', v'⟩ := kv
    simp only [List.map_cons, List.mem_cons, not_or] at h
    have hb : (k == k') = false := by simpa using h.1
    simp only [List.lookup, hb]
    exact ih h.2

theorem lookup_of_mem {P : List (GoString × GoString)} {k v : GoString}
    (hu : UniqueKeys P) (h : (k, v) ∈ P) : P.lookup k = some v := by
  induction P with
  | nil => simp at h
  | cons kv P ih =>
    obtain ⟨k', v'⟩ := kv
    unfold UniqueKeys at hu
    simp only [List.map_cons, List.nodup_cons] at hu
    rcases List.mem_cons.1 h with heq | hmem
    · cases heq
      simp [List.lookup]
    · have hne : k ≠ k' := by
        intro e
        subst e
        exact hu.1 (List.mem_map_of_mem Prod.fst hmem)
      have hb : (k == k') = false := by simpa using hne
      simp only [List.lookup, hb]
      exact ih hu.2 hmem

theorem mapIndex_perm {P₁ P₂ : List (GoString × GoString)} (hu : UniqueKeys P₁)
    (hp : P₁.Perm P₂) (k : GoString) : mapIndex P₁ k = mapIndex P₂ k := by
  have hu₂ : UniqueKeys P₂ := (hp.map Prod.fst).nodup_iff.1 hu
  unfold mapIndex
  cases h : P₁.lookup k with
  | none =>
    have hk : k ∉ P₂.map Prod.fst := by
      intro hmem
      obtain ⟨⟨k', v⟩, hkv, rfl⟩ := List.mem_map.1 hmem
      have := lookup_of_mem hu (hp.symm.subset hkv)
      simp [h] at this
    rw [lookup_none_of_not_mem hk]
  | some v => rw [lookup_of_mem hu₂ (hp.subset (lookup_mem h))]

/-- The hashed state after both loops depends on the parameters only through
the sorted list of keys that are neither `"sign"` nor empty-valued, and their
values. -/
theorem writeLoop_sorted (H : Hash) (P : List (GoString × GoString)) (h : H.State) :
    (sortStrings (JsPaySign.collectKeys P)).foldl (JsPaySign.writeParam H P) h
      = ((sortStrings ((P.map Prod.fst).filter
            (fun k => decide (k ≠ lit "sign") && decide (mapIndex P k ≠ [])))).map
          (fun k => k ++ lit "=" ++ mapIndex P k ++ lit "&")).foldl H.Write h := by
  rw [writeLoop_eq, collectKeys_eq, sortStrings_filter, List.filter_filter]
  congr 3
  apply List.filter_congr
  intro k _
  exact Bool.and_comm _ _

theorem writeLoop_congr (H : Hash) {P₁ P₂ : List (GoString × GoString)}
    (hk : ((P₁.map Prod.fst).filter
            (fun k => decide (k ≠ lit "sign") && decide (mapIndex P₁ k ≠ []))).Perm
          ((P₂.map Prod.fst).filter
            (fun k => decide (k ≠ lit "sign") && decide (mapIndex P₂ k ≠ []))))
    (hv : ∀ k ∈ (P₁.map Prod.fst).filter
            (fun k => decide (k ≠ lit "sign") && decide (mapIndex P₁ k ≠ [])),
          mapIndex P₁ k = mapIndex P₂ k)
    (h : H.State) :
    (sortStrings (JsPaySign.collectKeys P₁)).foldl (JsPaySign.writeParam H P₁) h
      = (sortStrings (JsPaySign.collectKeys P₂)).foldl (JsPaySign.writeParam H P₂) h := by
  rw [writeLoop_sorted, writeLoop_sorted, ← sortStrings_eq_of_perm hk]
  congr 1
  apply List.map_congr_left
  intro k hmem
  rw [hv k ((sortStrings_perm _).subset hmem)]

theorem feed_congr (H : Hash) {P₁ P₂ : List (GoString × GoString)} (K : GoString)
    (hk : ((P₁.map Prod.fst).filter
            (fun k => decide (k ≠ lit "sign") && decide (mapIndex P₁ k ≠ []))).Perm
          ((P₂.map Prod.fst).filter
            (fun k => decide (k ≠ lit "sign") && decide (mapIndex P₂ k ≠ []))))
    (hv : ∀ k ∈ (P₁.map Prod.fst).filter
            (fun k => decide (k ≠ lit "sign") && decide (mapIndex P₁ k ≠ [])),
          mapIndex P₁ k = mapIndex P₂ k) :
    JsPaySign.feed H P₁ K = JsPaySign.feed H P₂ K := by
  unfold JsPaySign.feed
  simp only [writeLoop_congr _ hk hv]

theorem feed_perm (H : Hash) {P₁ P₂ : List (GoString × GoString)} (K : GoString)
    (hu : UniqueKeys P₁) (hp : P₁.Perm P₂) :
    JsPaySign.feed H P₁ K = JsPaySign.feed H P₂ K := by
  apply feed_congr
  · have hf : (fun k => decide (k ≠ lit "sign") && decide (mapIndex P₁ k ≠ []))
        = (fun k => decide (k ≠ lit "sign") && decide (mapIndex P₂ k ≠ [])) := by
      funext k
      rw [mapIndex_perm hu hp k]
    rw [hf]
    exact (hp.map Prod.fst).filter _
  · intro k _
    exact mapIndex_perm hu hp k

/-- The signature is a function of the hash state handed to `Sum`. -/
theorem JsPaySign_of_feed (md5New : Hash) {P₁ P₂ : List (GoString × GoString)}
    {K₁ K₂ : GoString} (fn : Option Hash)
    (h : ∀ H : Hash, JsPaySign.feed H P₁ K₁ = JsPaySign.feed H P₂ K₂) :
    JsPaySign md5New P₁ K₁ fn = JsPaySign md5New P₂ K₂ fn := by
  unfold JsPaySign
  simp only [h]

theorem foldl_write_stream (H : Hash) (hs : H.Streaming) (cs : List GoString)
    (s : H.State) (c tail : GoString) :
    H.Write (cs.foldl H.Write (H.Write s c)) tail = H.Write s (c ++ cs.flatten ++ tail) := by
  induction cs generalizing c with
  | nil => simp [hs s c tail]
  | cons d ds ih =>
    rw [List.foldl_cons, hs s c d, ih (c ++ d)]
    simp [List.append_assoc]

theorem flatten_filter_map (p : GoString → Bool) (f : GoString → GoString)
    (ks : List GoString) :
    ((ks.filter p).map f).flatten = ks.flatMap (fun k => if p k then f k else []) := by
  induction ks with
  | nil => rfl
  | cons k ks ih =>
    by_cases hp : p k
    · simp [List.filter_cons, hp, ih, List.flatMap_cons]
    · simp [List.filter_cons, hp, ih, List.flatMap_cons]

theorem feed_eq_canonical (H : Hash) (hs : H.Streaming) (P : List (GoString × GoString))
    (K : GoString) :
    JsPaySign.feed H P K = H.Write H.init (canonicalString P K) := by
  unfold JsPaySign.feed canonicalString
  simp only [writeLoop_eq, collectKeys_eq, List.nil_append]
  have hflat := flatten_filter_map (fun k => decide (mapIndex P k ≠ []))
    (fun k => k ++ lit "=" ++ mapIndex P k ++ lit "&")
    (sortStrings ((P.map Prod.fst).filter (fun k => decide (k ≠ lit "sign"))))
  have hfun : (fun k => if decide (mapIndex P k ≠ []) = true
        then k ++ lit "=" ++ mapIndex P k ++ lit "&" else ([] : GoString))
      = (fun k => if mapIndex P k = [] then [] else k ++ lit "=" ++ mapIndex P k ++ lit "&") := by
    funext k
    by_cases hv : mapIndex P k = [] <;> simp [hv]
  rw [hfun] at hflat
  rw [← hflat]
  cases hc : ((sortStrings ((P.map Prod.fst).filter (fun k => decide (k ≠ lit "sign")))).filter
      (fun k => decide (mapIndex P k ≠ []))).map
      (fun k => k ++ lit "=" ++ mapIndex P k ++ lit "&") with
  | nil => simp
  | cons c cs =>
    rw [List.foldl_cons, foldl_write_stream H hs cs H.init c]
    simp [List.append_assoc]

theorem length_hexBytes (src : GoString) : (hexBytes src).length = 2 * src.length := by
  induction src with
  | nil => rfl
  | cons v vs ih => simp [hexBytes, ih]; omega

theorem hexEncode_exact (n : Nat) (src : GoString) (h : src.length = n) :
    hexEncode (List.replicate (n * 2) 0) src = some (hexBytes src) := by
  unfold hexEncode
  have : ¬ (List.replicate (n * 2) (0 : Byte)).length < 2 * src.length := by
    simp [h]; omega
  rw [if_neg this]
  have hd : (List.replicate (n * 2) (0 : Byte)).drop (2 * src.length) = [] := by
    apply List.drop_of_length_le
    simp [h]; omega
  rw [hd, List.append_nil]

theorem getD_ascii (l : GoString) (hl : ∀ c ∈ l, c < 128) (n : Nat) : l.getD n 0 < 128 := by
  induction l generalizing n with
  | nil => simp
  | cons a l ih =>
    cases n with
    | zero => simpa using hl a (List.mem_cons_self a l)
    | succ n => simpa using ih (fun c hc => hl c (List.mem_cons_of_mem a hc)) n

theorem hextable_eq :
    hextable = [48, 49, 50, 51, 52, 53, 54, 55, 56, 57, 97, 98, 99, 100, 101, 102] := by
  decide

theorem hexDigit_ascii (i : Byte) : hexDigit i < 128 := by
  apply getD_ascii
  rw [hextable_eq]
  intro c hc
  simp only [List.mem_cons, List.mem_singleton, List.not_mem_nil, or_false] at hc
  rcases hc with h | h | h | h | h | h | h | h | h | h | h | h | h | h | h | h <;>
    subst h <;> decide

/-- The buffer handed to `bytes.ToUpper` holds ASCII bytes only (hex digits,
and zero bytes where `Sum` is shorter than `Size`), so `bytes.ToUpper` takes
its ASCII path. -/
theorem hexEncode_ascii (n : Nat) (src out : GoString)
    (h : hexEncode (List.replicate n 0) src = some out) : ∀ c ∈ out, c < 128 := by
  have hb : ∀ s : GoString, ∀ c ∈ hexBytes s, c < 128 := by
    intro s
    induction s with
    | nil => simp [hexBytes]
    | cons v vs ih =>
      intro c hc
      simp only [hexBytes, List.mem_cons] at hc
      rcases hc with hc | hc | hc
      · exact hc ▸ hexDigit_ascii _
      · exact hc ▸ hexDigit_ascii _
      · exact ih c hc
  unfold hexEncode at h
  split at h
  · simp at h
  · cases h
    intro c hc
    rcases List.mem_append.1 hc with hc | hc
    · exact hb src c hc
    · have := List.eq_of_mem_replicate (List.mem_of_mem_drop hc)
      rw [this]
      decide

/-- C1: for every parameter list `P`, secret key `K` and hash `H` meeting the
`hash.Hash` contract (`md5.New` when `fn` is nil), `JsPaySign` returns the
upper-cased hex encoding of `H` applied to the canonical string (keys other
than `"sign"` in ascending byte order, `key=value&` for each non-empty value,
then `key=K`), and its incremental `Write` calls leave the hash in the state
of a single `Write` of that string. -/
theorem JsPaySign_eq_specSign (md5New : Hash) (P : List (GoString × GoString))
    (K : GoString) (fn : Option Hash)
    (hs : (fn.getD md5New).Streaming) (hz : (fn.getD md5New).SumHasSize) :
    JsPaySign md5New P K fn = some (specSign (fn.getD md5New) P K)
      ∧ JsPaySign.feed (fn.getD md5New) P K
          = (fn.getD md5New).Write (fn.getD md5New).init (canonicalString P K) := by
  refine ⟨?_, feed_eq_canonical _ hs P K⟩
  have key : ∀ H : Hash, H.Streaming → H.SumHasSize →
      (match hexEncode (List.replicate (H.Size * 2) 0) (H.Sum (JsPaySign.feed H P K)) with
        | none => none
        | some signature => some (bytesToUpper signature)) = some (specSign H P K) := by
    intro H hs hz
    rw [hexEncode_exact _ _ (hz _), feed_eq_canonical H hs]
    rfl
  cases fn with
  | none => exact key md5New hs hz
  | some f => exact key f hs hz

/-- C1 witness: `{"b":"2","a":"1","c":""}` with key `"KEY"` hashes exactly
`a=1&b=2&key=KEY`. -/
theorem JsPaySign_eq_specSign_witness :
    canonicalString [(lit "b", lit "2"), (lit "a", lit "1"), (lit "c", lit "")] (lit "KEY")
        = lit "a=1&b=2&key=KEY"
      ∧ JsPaySign toyHash [(lit "b", lit "2"), (lit "a", lit "1"), (lit "c", lit "")]
          (lit "KEY") none = some (lit "0F5B")
      ∧ (JsPaySign toyHash [(lit "b", lit "2"), (lit "a", lit "1"), (lit "c", lit "")]
          (lit "KEY") none
          = some (specSign toyHash
              [(lit "b", lit "2"), (lit "a", lit "1"), (lit "c", lit "")] (lit "KEY"))
        ∧ JsPaySign.feed toyHash [(lit "b", lit "2"), (lit "a", lit "1"), (lit "c", lit "")]
            (lit "KEY")
          = toyHash.Write toyHash.init (canonicalString
              [(lit "b", lit "2"), (lit "a", lit "1"), (lit "c", lit "")] (lit "KEY"))) :=
  ⟨by decide, by decide,
    JsPaySign_eq_specSign toyHash
      [(lit "b", lit "2"), (lit "a", lit "1"), (lit "c", lit "")] (lit "KEY") none
      (fun s a b => List.append_assoc s a b) (fun _ => rfl)⟩

theorem mapIndex_cons_ne (k v : GoString) (P : List (GoString × GoString)) {k' : GoString}
    (h : k' ≠ k) : mapIndex ((k, v) :: P) k' = mapIndex P k' := by
  have hb : (k' == k) = false := by simpa using h
  simp [mapIndex, List.lookup, hb]

theorem mapIndex_cons_self (k v : GoString) (P : List (GoString × GoString)) :
    mapIndex ((k, v) :: P) k = v := by
  simp [mapIndex, List.lookup]

/-- An entry that is `"sign"` or empty-valued, put in front of a map that does
not hold its key, leaves the hash state unchanged. -/
theorem feed_cons_skipped (H : Hash) (P : List (GoString × GoString)) (k v K : GoString)
    (hk : k ∉ P.map Prod.fst) (hskip : k = lit "sign" ∨ v = []) :
    JsPaySign.feed H ((k, v) :: P) K = JsPaySign.feed H P K := by
  have hne : ∀ k' ∈ P.map Prod.fst, k' ≠ k := fun k' hmem e => hk (e ▸ hmem)
  have hhead : (decide (k ≠ lit "sign") && decide (mapIndex ((k, v) :: P) k ≠ [])) = false := by
    rw [mapIndex_cons_self]
    rcases hskip with h | h <;> simp [h]
  have hfilter : ((((k, v) :: P).map Prod.fst).filter
        (fun k' => decide (k' ≠ lit "sign") && decide (mapIndex ((k, v) :: P) k' ≠ [])))
      = (P.map Prod.fst).filter
        (fun k' => decide (k' ≠ lit "sign") && decide (mapIndex P k' ≠ [])) := by
    rw [List.map_cons, List.filter_cons, hhead]
    simp only [Bool.false_eq_true, if_false]
    apply List.filter_congr
    intro k' hmem
    rw [mapIndex_cons_ne k v P (hne k' hmem)]
  apply feed_congr
  · rw [hfilter]
  · intro k' hmem
    rw [hfilter] at hmem
    exact mapIndex_cons_ne k v P (hne k' (List.mem_of_mem_filter hmem))

theorem uniqueKeys_cons {k v : GoString} {P : List (GoString × GoString)}
    (hu : UniqueKeys P) (hk : k ∉ P.map Prod.fst) : UniqueKeys ((k, v) :: P) := by
  unfold UniqueKeys
  rw [List.map_cons, List.nodup_cons]
  exact ⟨hk, hu⟩

/-- C2: `JsPaySign` does not depend on the iteration order of its parameter
map: two entry lists with unique keys that are permutations of each other get
the same signature, for every secret key and every hash. -/
theorem JsPaySign_perm (md5New : Hash) (P₁ P₂ : List (GoString × GoString))
    (K : GoString) (fn : Option Hash) (hu : UniqueKeys P₁) (hp : P₁.Perm P₂) :
    JsPaySign md5New P₁ K fn = JsPaySign md5New P₂ K fn :=
  JsPaySign_of_feed md5New fn (fun H => feed_perm H K hu hp)

/-- C2 witness: the entries `{"b":"2","a":"1"}` in both orders. -/
theorem JsPaySign_perm_witness :
    UniqueKeys [(lit "b", lit "2"), (lit "a", lit "1")]
      ∧ [(lit "b", lit "2"), (lit "a", lit "1")].Perm [(lit "a", lit "1"), (lit "b", lit "2")]
      ∧ JsPaySign toyHash [(lit "b", lit "2"), (lit "a", lit "1")] (lit "KEY") none
          = JsPaySign toyHash [(lit "a", lit "1"), (lit "b", lit "2")] (lit "KEY") none :=
  ⟨by decide, List.Perm.swap _ _ _,
    JsPaySign_perm toyHash _ _ (lit "KEY") none (by decide) (List.Perm.swap _ _ _)⟩

/-- C3: an empty-valued parameter does not affect the signature.  For every
map `P` with unique keys, every key `k` not in `P` and every entry order `Q`
of `P` extended by `k ↦ ""`, `JsPaySign` of `Q` equals `JsPaySign` of `P`, and
every hash receives the same writes: the entry contributes neither its key
nor a separator to the hashed bytes. -/
theorem JsPaySign_empty_value (md5New : Hash) (P Q : List (GoString × GoString))
    (k K : GoString) (fn : Option Hash) (hu : UniqueKeys P) (hk : k ∉ P.map Prod.fst)
    (hq : Q.Perm ((k, []) :: P)) :
    JsPaySign md5New Q K fn = JsPaySign md5New P K fn
      ∧ ∀ H : Hash, JsPaySign.feed H Q K = JsPaySign.feed H P K := by
  have hfeed : ∀ H : Hash, JsPaySign.feed H Q K = JsPaySign.feed H P K := by
    intro H
    rw [← feed_perm H K (uniqueKeys_cons hu hk) hq.symm]
    exact feed_cons_skipped H P k [] K hk (Or.inr rfl)
  exact ⟨JsPaySign_of_feed md5New fn hfeed, hfeed⟩

/-- C3 witness: `{"a":"1","b":"2"}` extended by `"c" ↦ ""`, the new entry
iterated in the middle. -/
theorem JsPaySign_empty_value_witness :
    UniqueKeys [(lit "b", lit "2"), (lit "a", lit "1")]
      ∧ lit "c" ∉ [(lit "b", lit "2"), (lit "a", lit "1")].map Prod.fst
      ∧ JsPaySign toyHash [(lit "b", lit "2"), (lit "c", []), (lit "a", lit "1")]
            (lit "KEY") none
          = JsPaySign toyHash [(lit "b", lit "2"), (lit "a", lit "1")] (lit "KEY") none
      ∧ JsPaySign.feed toyHash [(lit "b", lit "2"), (lit "c", []), (lit "a", lit "1")]
            (lit "KEY") = lit "a=1&b=2&key=KEY" :=
  ⟨by decide, by decide,
    (JsPaySign_empty_value toyHash [(lit "b", lit "2"), (lit "a", lit "1")]
      [(lit "b", lit "2"), (lit "c", []), (lit "a", lit "1")] (lit "c") (lit "KEY") none
      (by decide) (by decide) (List.Perm.swap _ _ _)).1,
    by rfl⟩

/-- C4: an entry whose key is exactly `"sign"` is ignored.  For every map `P`
with unique keys and no `"sign"` key, every value `x` and every entry order
`Q` of `P` extended by `"sign" ↦ x`, `JsPaySign` of `Q` equals `JsPaySign` of
`P`, for every secret key and hash. -/
theorem JsPaySign_sign_ignored (md5New : Hash) (P Q : List (GoString × GoString))
    (x K : GoString) (fn : Option Hash) (hu : UniqueKeys P)
    (hk : lit "sign" ∉ P.map Prod.fst) (hq : Q.Perm ((lit "sign", x) :: P)) :
    JsPaySign md5New Q K fn = JsPaySign md5New P K fn := by
  apply JsPaySign_of_feed md5New fn
  intro H
  rw [← feed_perm H K (uniqueKeys_cons hu hk) hq.symm]
  exact feed_cons_skipped H P (lit "sign") x K hk (Or.inl rfl)

/-- C4 witness: `{"a":"1","b":"2"}` extended by `"sign" ↦ "XYZ"`. -/
theorem JsPaySign_sign_ignored_witness :
    UniqueKeys [(lit "b", lit "2"), (lit "a", lit "1")]
      ∧ lit "sign" ∉ [(lit "b", lit "2"), (lit "a", lit "1")].map Prod.fst
      ∧ JsPaySign toyHash [(lit "b", lit "2"), (lit "sign", lit "XYZ"), (lit "a", lit "1")]
            (lit "KEY") none
          = JsPaySign toyHash [(lit "b", lit "2"), (lit "a", lit "1")] (lit "KEY") none :=
  ⟨by decide, by decide,
    JsPaySign_sign_ignored toyHash [(lit "b", lit "2"), (lit "a", lit "1")]
      [(lit "b", lit "2"), (lit "sign", lit "XYZ"), (lit "a", lit "1")] (lit "XYZ") (lit "KEY")
      none (by decide) (by decide) (List.Perm.swap _ _ _)⟩

/-! ## The ticket flow -/

/-- The calls and results of `getTicketFromServer` on a refresh that reaches
`Cache.Set`: token obtained, response decoded, `errcode` zero. -/
theorem getTicketFromServer_success {σ : Type} (env : Env σ) (m : Context σ)
    (tok : GoString) (store : σ) (t : resTicket)
    (htok : env.GetAccessToken m.Cache = ((tok, none), store))
    (hdec : env.jsonUnmarshal (env.HTTPGet (getTicketURL tok)).1 = (t, none))
    (hcode : t.ErrCode = 0) :
    getTicketFromServer env m
      = ((t, (env.cacheSet store (jsAPITicketCacheKey m.AppID) (CacheValue.str t.Ticket)
                (wrapInt64 (wrapInt64 (t.ExpiresIn - 1500) * timeSecond))).2),
          { m with Cache := (env.cacheSet store (jsAPITicketCacheKey m.AppID)
                (CacheValue.str t.Ticket)
                (wrapInt64 (wrapInt64 (t.ExpiresIn - 1500) * timeSecond))).1 },
          [Event.getAccessToken, Event.httpGet (getTicketURL tok),
            Event.cacheSet (jsAPITicketCacheKey m.AppID) (CacheValue.str t.Ticket)
              (wrapInt64 (wrapInt64 (t.ExpiresIn - 1500) * timeSecond))]) := by
  unfold getTicketFromServer
  simp [htok, hdec, hcode]

/-- The calls and results of `getTicketFromServer` when the decoded response
carries a non-zero `errcode`. -/
theorem getTicketFromServer_errcode {σ : Type} (env : Env σ) (m : Context σ)
    (tok : GoString) (store : σ) (t : resTicket)
    (htok : env.GetAccessToken m.Cache = ((tok, none), store))
    (hdec : env.jsonUnmarshal (env.HTTPGet (getTicketURL tok)).1 = (t, none))
    (hcode : t.ErrCode ≠ 0) :
    getTicketFromServer env m
      = ((t, some (getTicketError t.ErrCode t.ErrMsg)), { m with Cache := store },
          [Event.getAccessToken, Event.httpGet (getTicketURL tok)]) := by
  unfold getTicketFromServer
  simp [htok, hdec, hcode]

theorem wrapInt64_of_range (x : Int) (h₁ : -(2 ^ 63) ≤ x) (h₂ : x < 2 ^ 63) :
    wrapInt64 x = x := by
  unfold wrapInt64
  rw [Int.emod_eq_of_lt (by omega) (by omega)]
  omega

/-- C6 (claim as stated, refuted): a successful refresh declaring a lifetime of
1000 seconds hands `Cache.Set` a TTL of -500 seconds, not `max(0, 1000 - 1500)`
seconds: nothing floors the difference at zero. -/
theorem getTicketFromServer_negative_ttl :
    setTTLs (getTicketFromServer
        (memEnv (lit "TOKEN") (lit "resp")
          { ErrCode := 0, ErrMsg := [], Ticket := lit "T", ExpiresIn := 1000 } none)
        (memContext [])).2.2 = [-500 * timeSecond]
      ∧ setTTLs (getTicketFromServer
        (memEnv (lit "TOKEN") (lit "resp")
          { ErrCode := 0, ErrMsg := [], Ticket := lit "T", ExpiresIn := 1000 } none)
        (memContext [])).2.2 ≠ [max 0 (1000 - 1500) * timeSecond] := by
  constructor <;> decide

/-- C6 (amended): on a successful refresh declaring a lifetime of `L` seconds,
with `L - 1500` between -9223372036 and 9223372036 (no `int64` wrap of the
nanosecond count), `getTicketFromServer` calls `Cache.Set` once, with a TTL of
`L - 1500` seconds and no floor: the TTL is `max(0, L - 1500)` seconds when
`1500 ≤ L`, and negative when `L < 1500`. -/
theorem getTicketFromServer_ttl {σ : Type} (env : Env σ) (m : Context σ)
    (tok : GoString) (store : σ) (t : resTicket) (L : Int)
    (htok : env.GetAccessToken m.Cache = ((tok, none), store))
    (hdec : env.jsonUnmarshal (env.HTTPGet (getTicketURL tok)).1 = (t, none))
    (hcode : t.ErrCode = 0) (hL : t.ExpiresIn = L)
    (hlo : -9223372036 ≤ L - 1500) (hhi : L - 1500 ≤ 9223372036) :
    setTTLs (getTicketFromServer env m).2.2 = [(L - 1500) * timeSecond]
      ∧ (1500 ≤ L → setTTLs (getTicketFromServer env m).2.2 = [max 0 (L - 1500) * timeSecond])
      ∧ (L < 1500 → ∀ ttl ∈ setTTLs (getTicketFromServer env m).2.2, ttl < 0) := by
  have hw : wrapInt64 (wrapInt64 (t.ExpiresIn - 1500) * timeSecond) = (L - 1500) * timeSecond := by
    rw [hL, wrapInt64_of_range (L - 1500) (by omega) (by omega)]
    apply wrapInt64_of_range
    · unfold timeSecond; omega
    · unfold timeSecond; omega
  have hset : setTTLs (getTicketFromServer env m).2.2 = [(L - 1500) * timeSecond] := by
    rw [getTicketFromServer_success env m tok store t htok hdec hcode, hw]
    rfl
  refine ⟨hset, ?_, ?_⟩
  · intro h
    rw [hset, max_eq_right (by omega)]
  · intro h ttl hmem
    rw [hset] at hmem
    rw [List.mem_singleton.1 hmem]
    unfold timeSecond
    omega

/-- C6 witness: a declared lifetime of 7200 seconds is stored for 5700. -/
theorem getTicketFromServer_ttl_witness :
    setTTLs (getTicketFromServer
        (memEnv (lit "TOKEN") (lit "resp")
          { ErrCode := 0, ErrMsg := [], Ticket := lit "T", ExpiresIn := 7200 } none)
        (memContext [])).2.2 = [5700 * timeSecond] :=
  (getTicketFromServer_ttl
    (memEnv (lit "TOKEN") (lit "resp")
      { ErrCode := 0, ErrMsg := [], Ticket := lit "T", ExpiresIn := 7200 } none)
    (memContext []) (lit "TOKEN") []
    { ErrCode := 0, ErrMsg := [], Ticket := lit "T", ExpiresIn := 7200 } 7200
    rfl rfl rfl rfl (by decide) (by decide)).1

/-- C7 (claim as stated, refuted): the cache is cold, the endpoint answers
`errcode` 0 with ticket `T`, `Cache.Set` fails; `GetTicket` returns the empty
string with the cache error, not `T`. -/
theorem GetTicket_drops_ticket_on_set_error :
    (GetTicket
        (memEnv (lit "TOKEN") (lit "resp")
          { ErrCode := 0, ErrMsg := [], Ticket := lit "T", ExpiresIn := 7200 }
          (some (lit "cache down")))
        (memContext [])).map (fun r => r.1)
        = some (Outcome.returned [] (some (lit "cache down")))
      ∧ (GetTicket
        (memEnv (lit "TOKEN") (lit "resp")
          { ErrCode := 0, ErrMsg := [], Ticket := lit "T", ExpiresIn := 7200 }
          (some (lit "cache down")))
        (memContext [])).map (fun r => r.1) ≠ some (Outcome.returned (lit "T") none)
      ∧ (GetTicket
        (memEnv (lit "TOKEN") (lit "resp")
          { ErrCode := 0, ErrMsg := [], Ticket := lit "T", ExpiresIn := 7200 }
          (some (lit "cache down")))
        (memContext [])).map (fun r => r.1)
          ≠ some (Outcome.returned (lit "T") (some (lit "cache down"))) := by
  refine ⟨?_, ?_, ?_⟩ <;> decide

/-- C7 (amended): on a cache miss in which the endpoint answers `errcode` 0 and
ticket `T` but `Cache.Set` returns an error `e`, `getTicketFromServer` returns
the ticket together with `e`, and `GetTicket` returns the empty string and
`e` to its caller, with the ticket lock released. -/
theorem GetTicket_set_failure {σ : Type} (env : Env σ) (m : Context σ)
    (tok : GoString) (store store₂ : σ) (t : resTicket) (e : GoError)
    (hlock : m.jsAPITicketLock = false)
    (hmiss : env.cacheGet m.Cache (jsAPITicketCacheKey m.AppID) = none)
    (htok : env.GetAccessToken m.Cache = ((tok, none), store))
    (hdec : env.jsonUnmarshal (env.HTTPGet (getTicketURL tok)).1 = (t, none))
    (hcode : t.ErrCode = 0)
    (hset : env.cacheSet store (jsAPITicketCacheKey m.AppID) (CacheValue.str t.Ticket)
        (wrapInt64 (wrapInt64 (t.ExpiresIn - 1500) * timeSecond)) = (store₂, some e)) :
    (getTicketFromServer env { m with jsAPITicketLock := true }).1 = (t, some e)
      ∧ GetTicket env m
        = some (Outcome.returned [] (some e), { m with Cache := store₂ },
            [Event.lock, Event.cacheGet (jsAPITicketCacheKey m.AppID), Event.getAccessToken,
              Event.httpGet (getTicketURL tok),
              Event.cacheSet (jsAPITicketCacheKey m.AppID) (CacheValue.str t.Ticket)
                (wrapInt64 (wrapInt64 (t.ExpiresIn - 1500) * timeSecond)),
              Event.unlock]) := by
  have hsrv := getTicketFromServer_success env { m with jsAPITicketLock := true } tok store t
    htok hdec hcode
  simp only [hset] at hsrv
  refine ⟨by rw [hsrv], ?_⟩
  unfold GetTicket
  simp only [hlock, hmiss, hsrv]
  cases m
  simp_all

/-- C7 witness: the in-memory cache with a failing `Set`. -/
theorem GetTicket_set_failure_witness :
    GetTicket
        (memEnv (lit "TOKEN") (lit "resp")
          { ErrCode := 0, ErrMsg := [], Ticket := lit "T", ExpiresIn := 7200 }
          (some (lit "cache down")))
        (memContext [])
      = some (Outcome.returned [] (some (lit "cache down")), memContext [],
          [Event.lock, Event.cacheGet (lit "jsapi_ticket_wx1"), Event.getAccessToken,
            Event.httpGet
              (lit "https://api.weixin.qq.com/cgi-bin/ticket/getticket?access_token=TOKEN&type=jsapi"),
            Event.cacheSet (lit "jsapi_ticket_wx1") (CacheValue.str (lit "T"))
              (5700 * timeSecond),
            Event.unlock]) :=
  (GetTicket_set_failure
    (memEnv (lit "TOKEN") (lit "resp")
      { ErrCode := 0, ErrMsg := [], Ticket := lit "T", ExpiresIn := 7200 }
      (some (lit "cache down")))
    (memContext []) (lit "TOKEN") [] []
    { ErrCode := 0, ErrMsg := [], Ticket := lit "T", ExpiresIn := 7200 } (lit "cache down")
    rfl rfl rfl rfl rfl rfl).2

/-- C8 (claim as stated, refuted): the cache is empty, so both the ticket and
the access token are missing; the access-token lookup refreshes and stores the
token, then the ticket endpoint answers `errcode` 40001.  `GetTicket` returns
the error, and the cache is not as it was before the call: it now holds the
access token. -/
theorem GetTicket_cold_token_changes_cache :
    (coldTokenEnv (lit "wx1") (lit "TOKEN") (lit "resp")
        { ErrCode := 40001, ErrMsg := lit "bad", Ticket := [], ExpiresIn := 0 }).cacheGet
        (memContext []).Cache (jsAPITicketCacheKey (memContext []).AppID) = none
      ∧ GetTicket
          (coldTokenEnv (lit "wx1") (lit "TOKEN") (lit "resp")
            { ErrCode := 40001, ErrMsg := lit "bad", Ticket := [], ExpiresIn := 0 })
          (memContext [])
        = some (Outcome.returned []
              (some (lit "getTicket Error : errcode=40001 , errmsg=bad")),
            memContext [(lit "access_token_wx1", CacheValue.str (lit "TOKEN"))],
            [Event.lock, Event.cacheGet (lit "jsapi_ticket_wx1"), Event.getAccessToken,
              Event.httpGet
                (lit "https://api.weixin.qq.com/cgi-bin/ticket/getticket?access_token=TOKEN&type=jsapi"),
              Event.unlock])
      ∧ (GetTicket
          (coldTokenEnv (lit "wx1") (lit "TOKEN") (lit "resp")
            { ErrCode := 40001, ErrMsg := lit "bad", Ticket := [], ExpiresIn := 0 })
          (memContext [])).map (fun r => r.2.1.Cache) ≠ some (memContext []).Cache := by
  refine ⟨?_, ?_, ?_⟩
  · decide
  · rfl
  · decide

/-- C8 (amended): a remote business error is surfaced and the ticket is never
cached.  On a cache miss in which the access token is obtained and the decoded
ticket response has a non-zero `errcode`, `GetTicket` returns the empty ticket
string and the error `getTicket Error : errcode=<errcode> , errmsg=<errmsg>`;
neither `GetTicket` nor `getTicketFromServer` calls `Cache.Set`, so the cache
is exactly in the state the access-token lookup left it, which is the state
before the call whenever that lookup does not write; the lock is released. -/
theorem GetTicket_remote_error {σ : Type} (env : Env σ) (m : Context σ)
    (tok : GoString) (store : σ) (t : resTicket)
    (hlock : m.jsAPITicketLock = false)
    (hmiss : env.cacheGet m.Cache (jsAPITicketCacheKey m.AppID) = none)
    (htok : env.GetAccessToken m.Cache = ((tok, none), store))
    (hdec : env.jsonUnmarshal (env.HTTPGet (getTicketURL tok)).1 = (t, none))
    (hcode : t.ErrCode ≠ 0) :
    GetTicket env m
        = some (Outcome.returned []
              (some (lit "getTicket Error : errcode=" ++ fmtInt t.ErrCode
                ++ lit " , errmsg=" ++ t.ErrMsg)),
            { m with Cache := store },
            [Event.lock, Event.cacheGet (jsAPITicketCacheKey m.AppID), Event.getAccessToken,
              Event.httpGet (getTicketURL tok), Event.unlock])
      ∧ (∀ r, GetTicket env m = some r →
          (∀ ev ∈ r.2.2, ev.isCacheSet = false) ∧ r.2.1.Cache = store
            ∧ (store = m.Cache → r.2.1 = m)) := by
  have hsrv := getTicketFromServer_errcode env { m with jsAPITicketLock := true } tok store t
    htok hdec hcode
  have hmain : GetTicket env m
        = some (Outcome.returned []
              (some (lit "getTicket Error : errcode=" ++ fmtInt t.ErrCode
                ++ lit " , errmsg=" ++ t.ErrMsg)),
            { m with Cache := store },
            [Event.lock, Event.cacheGet (jsAPITicketCacheKey m.AppID), Event.getAccessToken,
              Event.httpGet (getTicketURL tok), Event.unlock]) := by
    unfold GetTicket
    simp only [hlock, hmiss, hsrv]
    cases m
    simp_all [getTicketError]
  refine ⟨hmain, ?_⟩
  intro r hr
  rw [hmain] at hr
  cases hr
  refine ⟨?_, rfl, ?_⟩
  · intro ev hev
    simp only [List.mem_cons, List.mem_singleton, List.not_mem_nil, or_false] at hev
    rcases hev with h | h | h | h | h <;> subst h <;> rfl
  · intro hs
    cases m
    simp_all

/-- C8 witness: the access-token lookup does not write and the endpoint answers
`errcode` 40001, `errmsg` "bad"; the cache stays empty. -/
theorem GetTicket_remote_error_witness :
    GetTicket
        (memEnv (lit "TOKEN") (lit "resp")
          { ErrCode := 40001, ErrMsg := lit "bad", Ticket := [], ExpiresIn := 0 } none)
        (memContext [])
      = some (Outcome.returned [] (some (lit "getTicket Error : errcode=40001 , errmsg=bad")),
          memContext [],
          [Event.lock, Event.cacheGet (lit "jsapi_ticket_wx1"), Event.getAccessToken,
            Event.httpGet
              (lit "https://api.weixin.qq.com/cgi-bin/ticket/getticket?access_token=TOKEN&type=jsapi"),
            Event.unlock]) :=
  (GetTicket_remote_error
    (memEnv (lit "TOKEN") (lit "resp")
      { ErrCode := 40001, ErrMsg := lit "bad", Ticket := [], ExpiresIn := 0 } none)
    (memContext []) (lit "TOKEN") []
    { ErrCode := 40001, ErrMsg := lit "bad", Ticket := [], ExpiresIn := 0 }
    rfl rfl rfl rfl (by decide)).1

/-- C10: a cache hit short-circuits the refresh.  When the ticket lock is free
and the cache holds the string `v` under `jsapi_ticket_<appID>`, `GetTicket`
returns `(v, nil)`; its only calls are `Lock`, `Cache.Get` and `Unlock` (no
access-token lookup, no outbound request, no `Cache.Set`), and the context,
cache and lock included, is as before the call. -/
theorem GetTicket_cache_hit {σ : Type} (env : Env σ) (m : Context σ) (v : GoString)
    (hlock : m.jsAPITicketLock = false)
    (hhit : env.cacheGet m.Cache (jsAPITicketCacheKey m.AppID) = some (CacheValue.str v)) :
    GetTicket env m
        = some (Outcome.returned v none, m,
            [Event.lock, Event.cacheGet (jsAPITicketCacheKey m.AppID), Event.unlock])
      ∧ (∀ r, GetTicket env m = some r →
          Event.getAccessToken ∉ r.2.2 ∧ (∀ url, Event.httpGet url ∉ r.2.2)
            ∧ (∀ ev ∈ r.2.2, ev.isCacheSet = false)
            ∧ r.2.1.Cache = m.Cache ∧ r.2.1.jsAPITicketLock = false) := by
  have hmain : GetTicket env m
        = some (Outcome.returned v none, m,
            [Event.lock, Event.cacheGet (jsAPITicketCacheKey m.AppID), Event.unlock]) := by
    unfold GetTicket
    simp only [hlock, hhit]
    cases m
    simp_all
  refine ⟨hmain, ?_⟩
  intro r hr
  rw [hmain] at hr
  cases hr
  refine ⟨by simp, by simp, ?_, rfl, hlock⟩
  intro ev hev
  simp only [List.mem_cons, List.mem_singleton, List.not_mem_nil, or_false] at hev
  rcases hev with h | h | h <;> subst h <;> rfl

/-- C10 witness: the cache already holds ticket `T0` for app `wx1`. -/
theorem GetTicket_cache_hit_witness :
    GetTicket
        (memEnv (lit "TOKEN") (lit "resp")
          { ErrCode := 0, ErrMsg := [], Ticket := lit "T", ExpiresIn := 7200 } none)
        (memContext [(lit "jsapi_ticket_wx1", CacheValue.str (lit "T0"))])
      = some (Outcome.returned (lit "T0") none,
          memContext [(lit "jsapi_ticket_wx1", CacheValue.str (lit "T0"))],
          [Event.lock, Event.cacheGet (lit "jsapi_ticket_wx1"), Event.unlock]) :=
  (GetTicket_cache_hit
    (memEnv (lit "TOKEN") (lit "resp")
      { ErrCode := 0, ErrMsg := [], Ticket := lit "T", ExpiresIn := 7200 } none)
    (memContext [(lit "jsapi_ticket_wx1", CacheValue.str (lit "T0"))]) (lit "T0")
    rfl (by decide)).1

/-! ## The unified-order response -/

/-- The result of `getPrepayResponse` once the request was posted and the
response decoded into `res`. -/
theorem getPrepayResponse_decoded {σ : Type} (env : PayEnv) (m : Context σ)
    (params : PayParams) (data : GoString) (res : UnifiedOrderResp)
    (hpost : env.PostXML unifiedOrderURL (getPrepayResponse.request env m params) = (data, none))
    (hdec : env.xmlUnmarshal data = (res, none)) :
    getPrepayResponse env m params
      = if res.ReturnCode = lit "SUCCESS" then
          if res.ResultCode = lit "SUCCESS" then (some res, none)
          else (none, some (prepayError res.ErrCode res.ErrCodeDes res.ReturnMsg))
        else (none, some (prepayError res.ErrCode res.ErrCodeDes res.ReturnMsg)) := by
  unfold getPrepayResponse
  simp only [hpost, hdec]

/-- C9: the two-tier error model of `getPrepayResponse`.  For every decoded
unified-order response `res`: the function returns `res` with a nil error if
and only if `return_code` and `result_code` are both `"SUCCESS"` (and returns
a nil error only then); when `return_code` is not `"SUCCESS"` the result is
the error built from `err_code`, `err_code_des` and `return_msg` whatever
`result_code` holds; when `return_code` is `"SUCCESS"` and `result_code` is
not, it returns no response and an error whose message contains `err_code`
and `err_code_des`. -/
theorem getPrepayResponse_two_tier {σ : Type} (env : PayEnv) (m : Context σ)
    (params : PayParams) (data : GoString) (res : UnifiedOrderResp)
    (hpost : env.PostXML unifiedOrderURL (getPrepayResponse.request env m params) = (data, none))
    (hdec : env.xmlUnmarshal data = (res, none)) :
    (getPrepayResponse env m params = (some res, none)
        ↔ res.ReturnCode = lit "SUCCESS" ∧ res.ResultCode = lit "SUCCESS")
      ∧ ((getPrepayResponse env m params).2 = none
        ↔ res.ReturnCode = lit "SUCCESS" ∧ res.ResultCode = lit "SUCCESS")
      ∧ (res.ReturnCode ≠ lit "SUCCESS" → ∀ rc : GoString,
          getPrepayResponse
              { env with xmlUnmarshal := fun d =>
                  ({ (env.xmlUnmarshal d).1 with ResultCode := rc }, (env.xmlUnmarshal d).2) }
              m params
            = getPrepayResponse env m params)
      ∧ (res.ReturnCode = lit "SUCCESS" → res.ResultCode ≠ lit "SUCCESS" →
          getPrepayResponse env m params
              = (none, some (lit "get prepay id failed: errcode=" ++ res.ErrCode
                  ++ lit ", codedesc=" ++ res.ErrCodeDes ++ lit " errmsg=" ++ res.ReturnMsg))
            ∧ res.ErrCode <:+: (lit "get prepay id failed: errcode=" ++ res.ErrCode
                  ++ lit ", codedesc=" ++ res.ErrCodeDes ++ lit " errmsg=" ++ res.ReturnMsg)
            ∧ res.ErrCodeDes <:+: (lit "get prepay id failed: errcode=" ++ res.ErrCode
                  ++ lit ", codedesc=" ++ res.ErrCodeDes ++ lit " errmsg=" ++ res.ReturnMsg)) := by
  have hres := getPrepayResponse_decoded env m params data res hpost hdec
  refine ⟨?_, ?_, ?_, ?_⟩
  · rw [hres]
    by_cases h1 : res.ReturnCode = lit "SUCCESS"
    · by_cases h2 : res.ResultCode = lit "SUCCESS"
      · simp [h1, h2]
      · simp [h1, h2]
    · simp [h1]
  · rw [hres]
    by_cases h1 : res.ReturnCode = lit "SUCCESS"
    · by_cases h2 : res.ResultCode = lit "SUCCESS"
      · simp [h1, h2]
      · simp [h1, h2]
    · simp [h1]
  · intro h1 rc
    rw [hres]
    rw [getPrepayResponse_decoded
      { env with xmlUnmarshal := fun d =>
          ({ (env.xmlUnmarshal d).1 with ResultCode := rc }, (env.xmlUnmarshal d).2) }
      m params data { res with ResultCode := rc } hpost (by simp [hdec])]
    simp [h1]
  · intro h1 h2
    refine ⟨?_, ?_, ?_⟩
    · rw [hres]
      simp [h1, h2, prepayError]
    · exact ⟨lit "get prepay id failed: errcode=",
        lit ", codedesc=" ++ res.ErrCodeDes ++ lit " errmsg=" ++ res.ReturnMsg,
        by simp [List.append_assoc]⟩
    · exact ⟨lit "get prepay id failed: errcode=" ++ res.ErrCode ++ lit ", codedesc=",
        lit " errmsg=" ++ res.ReturnMsg, by simp [List.append_assoc]⟩

/-- C9 witness: transport success with business failure `ORDERPAID`. -/
theorem getPrepayResponse_two_tier_witness :
    getPrepayResponse
        (payEnv { UnifiedOrderResp.zero with
          ReturnCode := lit "SUCCESS", ReturnMsg := lit "OK", ResultCode := lit "FAIL",
          ErrCode := lit "ORDERPAID", ErrCodeDes := lit "paid" })
        (memContext []) demoParams
      = (none, some (lit "get prepay id failed: errcode=ORDERPAID, codedesc=paid errmsg=OK")) :=
  ((getPrepayResponse_two_tier
    (payEnv { UnifiedOrderResp.zero with
      ReturnCode := lit "SUCCESS", ReturnMsg := lit "OK", ResultCode := lit "FAIL",
      ErrCode := lit "ORDERPAID", ErrCodeDes := lit "paid" })
    (memContext []) demoParams (lit "<xml/>")
    { UnifiedOrderResp.zero with
      ReturnCode := lit "SUCCESS", ReturnMsg := lit "OK", ResultCode := lit "FAIL",
      ErrCode := lit "ORDERPAID", ErrCodeDes := lit "paid" }
    rfl rfl).2.2.2 (by decide) (by decide)).1

/-! ## The transport error of the ticket refresh -/

/-- The error that `util.HTTPGet` returns never reaches the results: replacing
it by any other error value, or by nil, changes nothing that
`getTicketFromServer` returns or does. -/
theorem getTicketFromServer_transport_error_unread {σ : Type} (env : Env σ) (m : Context σ)
    (f : GoString → Option GoError) :
    getTicketFromServer { env with HTTPGet := fun url => ((env.HTTPGet url).1, f url) } m
      = getTicketFromServer env m := by
  unfold getTicketFromServer
  rfl

/-- C11 (the code at the failing input): the cache is cold and `util.HTTPGet`
returns a well-formed ticket body together with a non-nil error.  The error is
overwritten by the result of `json.Unmarshal`: `getTicketFromServer` returns
the ticket with a nil error, writes it to the cache, and `GetTicket` returns
`("T", nil)`. -/
theorem GetTicket_swallows_transport_error :
    ((brokenTransportEnv (lit "TOKEN") ticketBody (lit "read: connection reset")
          { ErrCode := 0, ErrMsg := lit "ok", Ticket := lit "T", ExpiresIn := 7200 }).HTTPGet
        (getTicketURL (lit "TOKEN"))).2 = some (lit "read: connection reset")
      ∧ (getTicketFromServer
          (brokenTransportEnv (lit "TOKEN") ticketBody (lit "read: connection reset")
            { ErrCode := 0, ErrMsg := lit "ok", Ticket := lit "T", ExpiresIn := 7200 })
          (memContext [])).1
        = ({ ErrCode := 0, ErrMsg := lit "ok", Ticket := lit "T", ExpiresIn := 7200 }, none)
      ∧ GetTicket
          (brokenTransportEnv (lit "TOKEN") ticketBody (lit "read: connection reset")
            { ErrCode := 0, ErrMsg := lit "ok", Ticket := lit "T", ExpiresIn := 7200 })
          (memContext [])
        = some (Outcome.returned (lit "T") none,
            memContext [(lit "jsapi_ticket_wx1", CacheValue.str (lit "T"))],
            [Event.lock, Event.cacheGet (lit "jsapi_ticket_wx1"), Event.getAccessToken,
              Event.httpGet
                (lit "https://api.weixin.qq.com/cgi-bin/ticket/getticket?access_token=TOKEN&type=jsapi"),
              Event.cacheSet (lit "jsapi_ticket_wx1") (CacheValue.str (lit "T"))
                (5700 * timeSecond),
              Event.unlock]) := by
  refine ⟨?_, ?_, ?_⟩
  · decide
  · decide
  · rfl

end Wechat
